import Mathlib

/-!
A verification development for the comparison/classification engine of the
Data-Analysis-Tool repository (`comparison_logic.py`).

Tables are modelled as an ordered list of column names together with an
ordered list of rows; a cell holds a string, a number (modelled as `Rat`),
or a missing value (pandas `NaN`).  Python dictionaries returned by the
engine are modelled as structures, and the `try/except` error dictionaries
as explicit sum types.  Scalar comparison with `==` in pandas/Python is
modelled by `valueEq`, under which a missing value (`NaN`) is not equal to
anything, including itself; `duplicated`, by contrast, treats missing
values as equal, which is modelled by structural equality of cell values.
-/

namespace DataAnalysis

/-- A cell value of a parsed spreadsheet table: a string, a number, or a
missing value (pandas `NaN`).  Numbers are modelled as integers: the
engine only compares quantities with `==` and subtracts them, and the
claims under verification do not depend on the numeric domain. -/
inductive Value where
  | str (s : String)
  | num (n : Int)
  | missing
deriving DecidableEq, Repr

/-- A table: an ordered list of column names and an ordered list of rows,
each row an ordered list of cell values (as in a pandas `DataFrame`). -/
structure Table where
  cols : List String
  rows : List (List Value)
deriving DecidableEq, Repr

/-- Looking a cell up by column label, as `row[col]` on a pandas row;
`none` models a `KeyError` (absent column). -/
def Table.cellOpt (t : Table) (row : List Value) (c : String) : Option Value :=
  (t.cols.findIdx? (fun d => d == c)).bind (fun i => row.get? i)

/-- Cell lookup defaulting to `missing`; used where the enclosing code has
already established that the column exists. -/
def Table.cellD (t : Table) (row : List Value) (c : String) : Value :=
  (t.cellOpt row c).getD .missing

/-- Python/pandas scalar `==`: strings compare by equality, numbers by
equality, a missing value (`NaN`) is equal to nothing (not even itself),
and values of different kinds are unequal. -/
def valueEq : Value → Value → Bool
  | .str a, .str b => a == b
  | .num a, .num b => a == b
  | _, _ => false

/-- Python `-` on cell values: numeric subtraction; arithmetic with a
missing value (`NaN`) yields `NaN`; `none` models a `TypeError` (string
operand), which the source surfaces through its `except` branch. -/
def valueSub : Value → Value → Option Value
  | .num a, .num b => some (.num (a - b))
  | .num _, .missing => some .missing
  | .missing, .num _ => some .missing
  | .missing, .missing => some .missing
  | _, _ => none

/-- The list of values of one column, top to bottom (`df[col]`). -/
def columnValues (t : Table) (c : String) : List Value :=
  t.rows.map (fun r => t.cellD r c)

/-- `set(df[col].dropna())`: the set of non-missing values of a column. -/
def facilitySet (t : Table) (c : String) : Finset Value :=
  ((columnValues t c).filter (fun v => v ≠ .missing)).toFinset

/-- The result dictionary of `compare_facility_names` in the success case.
Python sets become `Finset`s (the list order produced by `list(set(...))`
is unspecified). -/
structure FacilityComparisonResult where
  raw_facilities_count : Nat
  ingestion_facilities_count : Nat
  common_facilities_count : Nat
  missing_in_raw : Finset Value
  missing_in_ingestion : Finset Value
  missing_in_raw_count : Nat
  missing_in_ingestion_count : Nat
deriving DecidableEq

/-- Output of `compare_facility_names`: either an `{error: ...}` dictionary
or the comparison result. -/
inductive FacilityOutput where
  | error (msg : String)
  | ok (r : FacilityComparisonResult)
deriving DecidableEq

/-- Whether a `compare_facility_names` output is an error dictionary. -/
def FacilityOutput.isError : FacilityOutput → Bool
  | .error _ => true
  | .ok _ => false

/-- `compare_facility_names` from `comparison_logic.py`: compares the
facility-name columns of the two tables, tolerating the `Facility` alias on
the ingestion side. -/
def compare_facility_names (raw_data_df ingestion_df : Table) : FacilityOutput :=
  if "Facility Name" ∉ raw_data_df.cols then
    .error "Facility Name column not found in raw data file"
  else if "Facility Name" ∈ ingestion_df.cols ∨ "Facility" ∈ ingestion_df.cols then
    let fc := if "Facility Name" ∈ ingestion_df.cols then "Facility Name" else "Facility"
    let rawF := facilitySet raw_data_df "Facility Name"
    let ingF := facilitySet ingestion_df fc
    .ok {
      raw_facilities_count := rawF.card
      ingestion_facilities_count := ingF.card
      common_facilities_count := (rawF ∩ ingF).card
      missing_in_raw := ingF \ rawF
      missing_in_ingestion := rawF \ ingF
      missing_in_raw_count := (ingF \ rawF).card
      missing_in_ingestion_count := (rawF \ ingF).card }
  else
    .error "Neither Facility Name nor Facility column found in ingestion file"

/-- `identify_resource_type`: `GHG Emissions` when a `Scope` column is
present, else `Unknown`. -/
def identify_resource_type (ingestion_df : Table) : String :=
  if "Scope" ∈ ingestion_df.cols then "GHG Emissions" else "Unknown"

/-- Does `needle` occur at the head of `hay`? -/
def leadMatch : List Char → List Char → Bool
  | [], _ => true
  | _ :: _, [] => false
  | a :: as, b :: bs => a == b && leadMatch as bs

/-- Does `needle` occur anywhere in `hay` (contiguously)? -/
def charsContain (needle : List Char) : List Char → Bool
  | [] => leadMatch needle []
  | c :: cs => leadMatch needle (c :: cs) || charsContain needle cs

/-- Python's `tok in col` on strings: substring containment. -/
def strContains (hay tok : String) : Bool :=
  charsContain tok.toList hay.toList

/-- The eleven month tokens hardcoded in `comparison_logic.py`. -/
def monthTokens : List String :=
  ["Apr-24", "May-24", "Jun-24", "Jul-24", "Aug-24", "Sep-24",
   "Oct-24", "Nov-24", "Dec-24", "Jan-25", "Feb-25"]

/-- `any(month in col for month in [...])`: is some month token a
substring of the column name? -/
def isMonthColumn (c : String) : Bool :=
  monthTokens.any (fun tok => strContains c tok)

/-- The column names required by the `Monthly Data in Rows` check. -/
def type1_indicators : List String :=
  ["Scope", "Activity Type", "Month", "Year", "Quantity", "Unit", "Resource Name"]

/-- The column names required by the `Monthly Data in Columns` check. -/
def type2_indicators : List String :=
  ["Scope", "Activity Type", "Resource", "Units"]

/-- `identify_ingestion_file_type` from `comparison_logic.py`: classifies
the ingestion table from its column names alone. -/
def identify_ingestion_file_type (ingestion_df : Table) : String :=
  let columns := ingestion_df.cols
  if ("Facility Name" ∈ columns ∨ "Facility" ∈ columns) ∧
      (∀ c ∈ type1_indicators, c ∈ columns) then
    "Monthly Data in Rows"
  else if ("Facility Name" ∈ columns ∨ "Facility" ∈ columns) ∧
      (∀ c ∈ type2_indicators, c ∈ columns) ∧
      3 ≤ (columns.filter isMonthColumn).length then
    "Monthly Data in Columns"
  else
    "Unknown"

/-- `df[col].isnull().sum()`: the number of missing cells in a column. -/
def nullCount (t : Table) (c : String) : Nat :=
  ((columnValues t c).filter (fun v => v == .missing)).length

/-- The null-value issue message of `analyze_data_quality`. -/
def nullMsg (n : Nat) (c : String) : String :=
  "Ingestion data has " ++ toString n ++ " null values in \x27" ++ c ++ "\x27 column"

/-- The null-check loop of `analyze_data_quality`: one issue per checked
column with a nonzero count of missing cells, in column order. -/
def nullIssues (t : Table) (cols_to_check : List String) : List String :=
  cols_to_check.filterMap (fun c =>
    if 0 < nullCount t c then some (nullMsg (nullCount t c) c) else none)

/-- The projection of a row onto the given columns (the tuple pandas
`duplicated(subset=dupCols)` compares; `duplicated` treats `NaN` as equal
to `NaN`, hence structural equality of `Value`s). -/
def projRow (t : Table) (dupCols : List String) (r : List Value) : List Value :=
  dupCols.map (fun c => t.cellD r c)

/-- `df.duplicated(subset)` with the default `keep="first"`: a row is
flagged exactly when an earlier row has the same projection.  `seen`
accumulates the projections of the rows already passed. -/
def dupFlagsFirst (seen : List (List Value)) : List (List Value) → List Bool
  | [] => []
  | p :: ps => (decide (p ∈ seen)) :: dupFlagsFirst (p :: seen) ps

/-- `df.duplicated(subset, keep=False)`: a row is flagged exactly when its
projection occurs at least twice in the whole table. -/
def dupMaskAll (projs : List (List Value)) : List Bool :=
  projs.map (fun p => decide (2 ≤ projs.countP (fun q => decide (q = p))))

/-- `df[mask]`: the rows selected by a boolean mask, in order. -/
def maskFilter (rows : List (List Value)) (mask : List Bool) : List (List Value) :=
  ((rows.zip mask).filter (fun rb => rb.2)).map (fun rb => rb.1)

/-- The duplicate issue message of the `Monthly Data in Rows` branch. -/
def dupMsgRows (n : Nat) : String :=
  "Ingestion data has " ++ toString n ++
    " duplicate rows (same values in all columns except Quantity)"

/-- The duplicate issue message of the `Monthly Data in Columns` branch. -/
def dupMsgCols (n : Nat) : String :=
  "Ingestion data has " ++ toString n ++
    " duplicate rows (same values in all columns except month columns)"

/-- The duplicate issue message of the unknown-type branch. -/
def dupMsgAll (n : Nat) : String :=
  "Ingestion data has " ++ toString n ++ " completely duplicate rows"

/-- The result dictionary of `analyze_data_quality`; `duplicate_rows` is
`none` when the Python variable stays `None`. -/
structure QualityReport where
  quality_issues : List String
  duplicate_rows : Option (List (List Value))
deriving DecidableEq, Repr

/-- One branch of `analyze_data_quality`: null issues over
`cols_to_check`, then the duplicate check over the projection onto
`dup_cols`, with `mkMsg` building the branch's duplicate message. -/
def qualityBranch (ingestion_df : Table) (cols_to_check dup_cols : List String)
    (mkMsg : Nat → String) : QualityReport :=
  let nulls := nullIssues ingestion_df cols_to_check
  let projs := ingestion_df.rows.map (projRow ingestion_df dup_cols)
  let dups := (dupFlagsFirst [] projs).count true
  if 0 < dups then
    { quality_issues := nulls ++ [mkMsg dups],
      duplicate_rows := some (maskFilter ingestion_df.rows (dupMaskAll projs)) }
  else
    { quality_issues := nulls, duplicate_rows := none }

/-- `analyze_data_quality` from `comparison_logic.py`.  The first argument
is the raw-data table, which the body never reads (the analysis covers
ingestion data only). -/
def analyze_data_quality (raw_data_df ingestion_df : Table) : QualityReport :=
  let t := identify_ingestion_file_type ingestion_df
  if t = "Monthly Data in Rows" then
    qualityBranch ingestion_df
      (ingestion_df.cols.filter (fun c => c != "Quantity"))
      (ingestion_df.cols.filter (fun c => c != "Quantity"))
      dupMsgRows
  else if t = "Monthly Data in Columns" then
    qualityBranch ingestion_df
      (ingestion_df.cols.filter (fun c => !(isMonthColumn c)))
      (ingestion_df.cols.filter (fun c => !(isMonthColumn c)))
      dupMsgCols
  else
    qualityBranch ingestion_df ingestion_df.cols ingestion_df.cols dupMsgAll

/-- `find_data_discrepancies`: a placeholder returning the empty list. -/
def find_data_discrepancies (raw_data_df ingestion_df : Table) : List String :=
  []

/-- One entry of `comparison_results` in `map_ghg_emissions_data`; the
status strings are those of the source (`Match`, `Mismatch`,
`No Match in Raw Data`). -/
structure MatchRecord where
  facility_name : Value
  resource_name : Value
  month : Value
  year : Value
  raw_quantity : Option Value
  ingestion_quantity : Value
  difference : Option Value
  match_status : String
deriving DecidableEq, Repr

/-- The success dictionary of `map_ghg_emissions_data` for
`Monthly Data in Rows`. -/
structure MatchResult where
  total_ingestion_rows : Nat
  matched_rows : Nat
  unmatched_rows : Nat
  quantity_matches : Nat
  quantity_mismatches : Nat
  comparison_results : List MatchRecord
deriving DecidableEq, Repr

/-- Output of `map_ghg_emissions_data`: the row-matching result, the
`Monthly Data in Columns` placeholder dictionary, or an error dictionary
(unknown ingestion type, or an exception caught by the `except` branch). -/
inductive GhgMapOutput where
  | rowsResult (r : MatchResult)
  | columnsPlaceholder
  | error (msg : String)
deriving DecidableEq, Repr

/-- The facility column used on the ingestion side:
`'Facility Name' if 'Facility Name' in ingestion_df.columns else 'Facility'`. -/
def ingestionFacilityCol (t : Table) : String :=
  if "Facility Name" ∈ t.cols then "Facility Name" else "Facility"

/-- The four raw-data columns used as the composite match key. -/
def rawKeyCols : List String :=
  ["Facility Name", "Resource Name", "Month", "Year"]

/-- The boolean mask of the raw-data filter: the row's four key columns
compare `==`-equal to the ingestion row's key values. -/
def keyMatchesRow (raw : Table) (fn rn m y : Value) (r : List Value) : Bool :=
  valueEq (raw.cellD r "Facility Name") fn &&
  valueEq (raw.cellD r "Resource Name") rn &&
  valueEq (raw.cellD r "Month") m &&
  valueEq (raw.cellD r "Year") y

/-- The body of the per-ingestion-row loop of `map_ghg_emissions_data`:
extract the key and quantity, filter the raw rows, and build the record.
`none` models an exception (missing column, or a `TypeError` in the
quantity subtraction), which aborts the whole mapping. -/
def processIngestionRow (raw ing : Table) (fc : String) (irow : List Value) :
    Option MatchRecord := do
  let fn ← ing.cellOpt irow fc
  let rn ← ing.cellOpt irow "Resource Name"
  let m ← ing.cellOpt irow "Month"
  let y ← ing.cellOpt irow "Year"
  let iq ← ing.cellOpt irow "Quantity"
  if rawKeyCols.all (fun c => raw.cols.contains c) then
    match raw.rows.filter (keyMatchesRow raw fn rn m y) with
    | [] =>
        some { facility_name := fn, resource_name := rn, month := m, year := y,
               raw_quantity := none, ingestion_quantity := iq, difference := none,
               match_status := "No Match in Raw Data" }
    | r0 :: _ => do
        let rq ← raw.cellOpt r0 "Quantity"
        let d ← valueSub rq iq
        some { facility_name := fn, resource_name := rn, month := m, year := y,
               raw_quantity := some rq, ingestion_quantity := iq,
               difference := some d,
               match_status := if valueEq rq iq then "Match" else "Mismatch" }
  else
    none

/-- The accumulation loop of `map_ghg_emissions_data` over the ingestion
rows, carrying the record list and the four counters
(matched, unmatched, quantity matches, quantity mismatches). -/
def ghgLoop (raw ing : Table) (fc : String) :
    List (List Value) → Option (List MatchRecord × Nat × Nat × Nat × Nat)
  | [] => some ([], 0, 0, 0, 0)
  | irow :: rest => do
      let md ← processIngestionRow raw ing fc irow
      let (recs, m, u, qm, qmm) ← ghgLoop raw ing fc rest
      some (md :: recs,
        (if md.match_status = "No Match in Raw Data" then m else m + 1),
        (if md.match_status = "No Match in Raw Data" then u + 1 else u),
        (if md.match_status = "Match" then qm + 1 else qm),
        (if md.match_status = "Mismatch" then qmm + 1 else qmm))

/-- `map_ghg_emissions_data` from `comparison_logic.py`. -/
def map_ghg_emissions_data (raw_data_df ingestion_df : Table)
    (ingestion_type : String) : GhgMapOutput :=
  if ingestion_type = "Monthly Data in Rows" then
    match ghgLoop raw_data_df ingestion_df (ingestionFacilityCol ingestion_df)
        ingestion_df.rows with
    | some (recs, m, u, qm, qmm) =>
        .rowsResult { total_ingestion_rows := ingestion_df.rows.length,
                      matched_rows := m, unmatched_rows := u,
                      quantity_matches := qm, quantity_mismatches := qmm,
                      comparison_results := recs }
    | none => .error "Error mapping GHG emissions data"
  else if ingestion_type = "Monthly Data in Columns" then
    .columnsPlaceholder
  else
    .error ("Unknown ingestion file type: " ++ ingestion_type)

/-- Output of `compare_ghg_emissions_data`: the mapping error is forwarded
unchanged; otherwise the wrapping dictionary carries the ingestion type and
the mapping result. -/
inductive GhgCompareOutput where
  | error (msg : String)
  | ok (ingestion_type : String) (mapping : GhgMapOutput)
deriving DecidableEq, Repr

/-- `compare_ghg_emissions_data` from `comparison_logic.py`. -/
def compare_ghg_emissions_data (raw_data_df ingestion_df : Table)
    (ingestion_type : String) : GhgCompareOutput :=
  match map_ghg_emissions_data raw_data_df ingestion_df ingestion_type with
  | .error m => .error m
  | other => .ok ingestion_type other

/-- The `basic_info` dictionary of `compare_dataframes`; Python sets of
column names become `Finset`s. -/
structure BasicComparison where
  raw_data_rows : Nat
  ingestion_rows : Nat
  raw_data_cols : Nat
  ingestion_cols : Nat
  common_columns : Finset String
  raw_data_only_columns : Finset String
  ingestion_only_columns : Finset String
  row_difference : Int
  missing_in_ingestion : Nat
deriving DecidableEq

/-- The combined result dictionary of `compare_dataframes`;
`resource_comparison` is `none` when the key is absent (the resource type
is not `GHG Emissions`). -/
structure ComparisonResult where
  basic : BasicComparison
  facility_comparison : FacilityOutput
  resource_type : String
  ingestion_file_type : String
  resource_comparison : Option GhgCompareOutput
deriving DecidableEq

/-- `compare_dataframes` from `comparison_logic.py`: the orchestrating
comparison over the two tables. -/
def compare_dataframes (raw_data_df ingestion_df : Table) : ComparisonResult :=
  let resource_type := identify_resource_type ingestion_df
  let ftype := identify_ingestion_file_type ingestion_df
  { basic :=
      { raw_data_rows := raw_data_df.rows.length,
        ingestion_rows := ingestion_df.rows.length,
        raw_data_cols := raw_data_df.cols.length,
        ingestion_cols := ingestion_df.cols.length,
        common_columns := raw_data_df.cols.toFinset ∩ ingestion_df.cols.toFinset,
        raw_data_only_columns := raw_data_df.cols.toFinset \ ingestion_df.cols.toFinset,
        ingestion_only_columns := ingestion_df.cols.toFinset \ raw_data_df.cols.toFinset,
        row_difference := (raw_data_df.rows.length : Int) - ingestion_df.rows.length,
        missing_in_ingestion :=
          if ingestion_df.rows.length < raw_data_df.rows.length then
            raw_data_df.rows.length - ingestion_df.rows.length
          else 0 },
    facility_comparison := compare_facility_names raw_data_df ingestion_df,
    resource_type := resource_type,
    ingestion_file_type := ftype,
    resource_comparison :=
      if resource_type = "GHG Emissions" then
        some (compare_ghg_emissions_data raw_data_df ingestion_df ftype)
      else none }

/-- The report dictionary of `generate_comparison_report`; the wall-clock
timestamp written by `datetime.now().strftime(...)` is modelled as an
explicit `now` argument. -/
structure ComparisonReport where
  timestamp : String
  basic_comparison : ComparisonResult
  data_quality_issues : QualityReport
  discrepancies : List String
deriving DecidableEq

/-- `generate_comparison_report` from `comparison_logic.py`, with the
current wall-clock string passed explicitly. -/
def generate_comparison_report (now : String) (raw_data_df ingestion_df : Table) :
    ComparisonReport :=
  { timestamp := now,
    basic_comparison := compare_dataframes raw_data_df ingestion_df,
    data_quality_issues := analyze_data_quality raw_data_df ingestion_df,
    discrepancies := find_data_discrepancies raw_data_df ingestion_df }

/-! Section: Specification-side characterizations

The following definitions restate, in the spec's vocabulary, what the
claims assert about the source-translated functions above; the theorems
relate the two. -/

/-- The per-row contract of the record matcher, following the spec: the
record carries the ingestion row's key and quantity; with no raw match the
status is `No Match in Raw Data` and raw quantity and difference are null;
otherwise the raw quantity comes from the first matching raw row in
original order, the difference is raw minus ingestion quantity, and the
status is `Match` exactly when the two quantities are `==`-equal, else
`Mismatch`. -/
def matchRecordSpec (raw ing : Table) (irow : List Value) (md : MatchRecord) :
    Prop :=
  let fn := ing.cellD irow (ingestionFacilityCol ing)
  let rn := ing.cellD irow "Resource Name"
  let m := ing.cellD irow "Month"
  let y := ing.cellD irow "Year"
  let iq := ing.cellD irow "Quantity"
  md.facility_name = fn ∧ md.resource_name = rn ∧ md.month = m ∧ md.year = y ∧
  md.ingestion_quantity = iq ∧
  match raw.rows.filter (keyMatchesRow raw fn rn m y) with
  | [] =>
      md.raw_quantity = none ∧ md.difference = none ∧
      md.match_status = "No Match in Raw Data"
  | r0 :: _ =>
      md.raw_quantity = some (raw.cellD r0 "Quantity") ∧
      md.difference = valueSub (raw.cellD r0 "Quantity") iq ∧
      (md.match_status = "Match" ↔ valueEq (raw.cellD r0 "Quantity") iq = true) ∧
      (md.match_status = "Mismatch" ↔ valueEq (raw.cellD r0 "Quantity") iq = false)

/-- The identifying (non-excluded) columns the quality analysis projects
rows onto, per classified schema: all columns except `Quantity` for
`Monthly Data in Rows`, all non-month columns for
`Monthly Data in Columns`, and all columns otherwise. -/
def duplicateColumnsOf (ing : Table) : List String :=
  if identify_ingestion_file_type ing = "Monthly Data in Rows" then
    ing.cols.filter (fun c => c != "Quantity")
  else if identify_ingestion_file_type ing = "Monthly Data in Columns" then
    ing.cols.filter (fun c => !(isMonthColumn c))
  else
    ing.cols

/-- A row's identifying-column projection under the classified schema. -/
def keyProjection (ing : Table) (r : List Value) : List Value :=
  projRow ing (duplicateColumnsOf ing) r

/-- The list of all rows' identifying projections, in row order. -/
def projList (ing : Table) : List (List Value) :=
  ing.rows.map (keyProjection ing)

/-- How many rows of the table share the given row's identifying
projection (the row itself included). -/
def keyOccurrences (ing : Table) (r : List Value) : Nat :=
  ing.rows.countP (fun s => decide (keyProjection ing s = keyProjection ing r))

/-- Does some row's identifying projection occur at least twice? -/
def hasDuplicateGroup (ing : Table) : Bool :=
  ing.rows.any (fun r => decide (2 ≤ keyOccurrences ing r))

/-- Every row belonging to a duplicate group (each occurrence, the first
included), in original row order. -/
def duplicateGroupRows (ing : Table) : List (List Value) :=
  ing.rows.filter (fun r => decide (2 ≤ keyOccurrences ing r))

/-- The duplicate count the quality analysis reports: the number of rows
flagged by `duplicated(...)` with the default `keep="first"`. -/
def reportedDuplicateCount (ing : Table) : Nat :=
  (dupFlagsFirst [] (projList ing)).count true

/-- The duplicate issue message the quality analysis emits for the given
count, per classified schema. -/
def dupIssueMessage (ing : Table) (n : Nat) : String :=
  if identify_ingestion_file_type ing = "Monthly Data in Rows" then dupMsgRows n
  else if identify_ingestion_file_type ing = "Monthly Data in Columns" then
    dupMsgCols n
  else dupMsgAll n

/-- Does a `compare_dataframes` result carry a `MatchRecord` list with
summary counters (a successful row-mapping result)? -/
def carriesMatchRecords : Option GhgCompareOutput → Bool
  | some (.ok _ (.rowsResult _)) => true
  | _ => false

/-- Is a mapping output a row-matching result? -/
def GhgMapOutput.isRowsResult : GhgMapOutput → Bool
  | .rowsResult _ => true
  | _ => false

/-- All column names whose presence the schema classifier tests for
(facility aliases and both indicator lists). -/
def relatedColumnNames : List String :=
  ["Facility Name", "Facility"] ++ type1_indicators ++ type2_indicators

/-! Section: Concrete sample tables used by witnesses and counterexamples -/

/-- A raw-data table with one GHG row (`Plant A`, Diesel, Apr 2024, 10). -/
def rawSampleB : Table :=
  { cols := ["Facility Name", "Resource Name", "Month", "Year", "Quantity"],
    rows := [[.str "Plant A", .str "Diesel", .str "Apr", .num 2024, .num 10]] }

/-- A `Monthly Data in Rows` ingestion table with one row matching
`rawSampleB` exactly (quantity 10). -/
def ingSampleB : Table :=
  { cols := ["Facility Name", "Scope", "Activity Type", "Month", "Year",
             "Quantity", "Unit", "Resource Name"],
    rows := [[.str "Plant A", .num 1, .str "Fuel", .str "Apr", .num 2024,
              .num 10, .str "t", .str "Diesel"]] }

/-- The row-matching result on `rawSampleB`/`ingSampleB`: one matched row
with equal quantities. -/
def sampleMatchResult : MatchResult :=
  { total_ingestion_rows := 1, matched_rows := 1, unmatched_rows := 0,
    quantity_matches := 1, quantity_mismatches := 0,
    comparison_results :=
      [{ facility_name := .str "Plant A", resource_name := .str "Diesel",
         month := .str "Apr", year := .num 2024,
         raw_quantity := some (.num 10), ingestion_quantity := .num 10,
         difference := some (.num 0), match_status := "Match" }] }

/-- Scenario A raw table: facilities `Plant A`, `Plant B`. -/
def rawSampleC : Table :=
  { cols := ["Facility Name"],
    rows := [[.str "Plant A"], [.str "Plant B"]] }

/-- Scenario A ingestion table: `Facility` column with `Plant A`,
`Plant C`. -/
def ingSampleC : Table :=
  { cols := ["Facility"],
    rows := [[.str "Plant A"], [.str "Plant C"]] }

/-- The facility-comparison result on `rawSampleC`/`ingSampleC`. -/
def sampleFacilityResult : FacilityComparisonResult :=
  { raw_facilities_count := 2, ingestion_facilities_count := 2,
    common_facilities_count := 1,
    missing_in_raw := {.str "Plant C"},
    missing_in_ingestion := {.str "Plant B"},
    missing_in_raw_count := 1, missing_in_ingestion_count := 1 }

/-- A `Monthly Data in Rows` ingestion table whose two rows agree on every
column (in particular on everything except `Quantity`). -/
def ingSampleD : Table :=
  { cols := ["Facility Name", "Scope", "Activity Type", "Month", "Year",
             "Quantity", "Unit", "Resource Name"],
    rows := [[.str "Plant A", .num 1, .str "Fuel", .str "Apr", .num 2024,
              .num 5, .str "t", .str "Diesel"],
             [.str "Plant A", .num 1, .str "Fuel", .str "Apr", .num 2024,
              .num 5, .str "t", .str "Diesel"]] }

/-- An ingestion table with a `Scope` column (GHG resource) whose schema
is not recognized. -/
def ingSampleU : Table :=
  { cols := ["Facility Name", "Scope"],
    rows := [] }

/-! Section: Lemmas about the record-matching loop -/

theorem processIngestionRow_spec {raw ing : Table} {irow : List Value}
    {md : MatchRecord}
    (h : processIngestionRow raw ing (ingestionFacilityCol ing) irow = some md) :
    matchRecordSpec raw ing irow md := by
  unfold processIngestionRow at h
  obtain ⟨fn, hfn, h⟩ := Option.bind_eq_some.mp h
  obtain ⟨rn, hrn, h⟩ := Option.bind_eq_some.mp h
  obtain ⟨m, hm, h⟩ := Option.bind_eq_some.mp h
  obtain ⟨y, hy, h⟩ := Option.bind_eq_some.mp h
  obtain ⟨iq, hiq, h⟩ := Option.bind_eq_some.mp h
  have efn : ing.cellD irow (ingestionFacilityCol ing) = fn := by
    rw [Table.cellD, hfn]; rfl
  have ern : ing.cellD irow "Resource Name" = rn := by rw [Table.cellD, hrn]; rfl
  have em : ing.cellD irow "Month" = m := by rw [Table.cellD, hm]; rfl
  have ey : ing.cellD irow "Year" = y := by rw [Table.cellD, hy]; rfl
  have eiq : ing.cellD irow "Quantity" = iq := by rw [Table.cellD, hiq]; rfl
  simp only [matchRecordSpec, efn, ern, em, ey, eiq]
  split at h
  case isTrue =>
    cases hfilt : raw.rows.filter (keyMatchesRow raw fn rn m y) with
    | nil =>
      rw [hfilt] at h
      cases h
      exact ⟨rfl, rfl, rfl, rfl, rfl, rfl, rfl, rfl⟩
    | cons r0 tl =>
      rw [hfilt] at h
      obtain ⟨rq, hrq, h⟩ := Option.bind_eq_some.mp h
      obtain ⟨d, hd, h⟩ := Option.bind_eq_some.mp h
      have erq : raw.cellD r0 "Quantity" = rq := by rw [Table.cellD, hrq]; rfl
      cases h
      refine ⟨rfl, rfl, rfl, rfl, rfl, ?_, ?_, ?_, ?_⟩
      · rw [erq]
      · rw [erq, hd]
      · rw [erq]
        cases hveq : valueEq rq iq <;> simp [hveq]
      · rw [erq]
        cases hveq : valueEq rq iq <;> simp [hveq]
  case isFalse =>
    exact absurd h (by simp)

theorem processIngestionRow_status {raw ing : Table} {fc : String}
    {irow : List Value} {md : MatchRecord}
    (h : processIngestionRow raw ing fc irow = some md) :
    md.match_status = "Match" ∨ md.match_status = "Mismatch" ∨
      md.match_status = "No Match in Raw Data" := by
  unfold processIngestionRow at h
  obtain ⟨fn, hfn, h⟩ := Option.bind_eq_some.mp h
  obtain ⟨rn, hrn, h⟩ := Option.bind_eq_some.mp h
  obtain ⟨m, hm, h⟩ := Option.bind_eq_some.mp h
  obtain ⟨y, hy, h⟩ := Option.bind_eq_some.mp h
  obtain ⟨iq, hiq, h⟩ := Option.bind_eq_some.mp h
  split at h
  case isTrue =>
    cases hfilt : raw.rows.filter (keyMatchesRow raw fn rn m y) with
    | nil =>
      rw [hfilt] at h
      cases h
      simp
    | cons r0 tl =>
      rw [hfilt] at h
      obtain ⟨rq, hrq, h⟩ := Option.bind_eq_some.mp h
      obtain ⟨d, hd, h⟩ := Option.bind_eq_some.mp h
      cases h
      cases hveq : valueEq rq iq <;> simp [hveq]
  case isFalse =>
    exact absurd h (by simp)

theorem ghgLoop_spec {raw ing : Table} {fc : String} :
    ∀ {rows : List (List Value)} {recs : List MatchRecord} {m u qm qmm : Nat},
      ghgLoop raw ing fc rows = some (recs, m, u, qm, qmm) →
      m + u = rows.length ∧ qm + qmm = m ∧
        List.Forall₂ (fun irow md =>
          processIngestionRow raw ing fc irow = some md) rows recs := by
  intro rows
  induction rows with
  | nil =>
    intro recs m u qm qmm h
    unfold ghgLoop at h
    simp only [Option.some.injEq, Prod.mk.injEq] at h
    obtain ⟨h1, h2, h3, h4, h5⟩ := h
    subst h1; subst h2; subst h3; subst h4; subst h5
    simp
  | cons irow rest ih =>
    intro recs m u qm qmm h
    unfold ghgLoop at h
    obtain ⟨md, hmd, h⟩ := Option.bind_eq_some.mp h
    obtain ⟨⟨recs0, m0, u0, qm0, qmm0⟩, hloop, h⟩ := Option.bind_eq_some.mp h
    simp only [Option.some.injEq, Prod.mk.injEq] at h
    obtain ⟨h1, h2, h3, h4, h5⟩ := h
    subst h1; subst h2; subst h3; subst h4; subst h5
    obtain ⟨ihm, ihq, ihf⟩ := ih hloop
    refine ⟨?_, ?_, List.Forall₂.cons hmd ihf⟩
    · by_cases hs : md.match_status = "No Match in Raw Data"
      · simp only [if_pos hs, List.length_cons]
        omega
      · simp only [if_neg hs, List.length_cons]
        omega
    · rcases processIngestionRow_status hmd with hs | hs | hs
      · have h1 : md.match_status ≠ "No Match in Raw Data" := by rw [hs]; decide
        have h2 : md.match_status ≠ "Mismatch" := by rw [hs]; decide
        simp only [if_neg h1, if_pos hs, if_neg h2]
        omega
      · have h1 : md.match_status ≠ "No Match in Raw Data" := by rw [hs]; decide
        have h2 : md.match_status ≠ "Match" := by rw [hs]; decide
        simp only [if_neg h1, if_neg h2, if_pos hs]
        omega
      · have h1 : md.match_status ≠ "Match" := by rw [hs]; decide
        have h2 : md.match_status ≠ "Mismatch" := by rw [hs]; decide
        simp only [if_pos hs, if_neg h1, if_neg h2]
        omega

/-- Claim C1: For every raw table and every ingestion table processed as
`Monthly Data in Rows`, when the record matcher succeeds it produces one
`MatchRecord` per ingestion row, in order, and each record satisfies the
per-row contract `matchRecordSpec`: with no `==`-matching raw row the
status is `No Match in Raw Data` and raw quantity and difference are null;
otherwise the raw quantity is taken from the first matching raw row in
original order, the difference is raw minus ingestion quantity, and the
status is `Match` exactly when the quantities compare `==`-equal (under
which a missing value equals nothing), else `Mismatch`. -/
theorem C1_record_matching (raw ing : Table) (res : MatchResult)
    (h : map_ghg_emissions_data raw ing "Monthly Data in Rows" =
      .rowsResult res) :
    List.Forall₂ (matchRecordSpec raw ing) ing.rows res.comparison_results := by
  unfold map_ghg_emissions_data at h
  rw [if_pos rfl] at h
  cases hloop : ghgLoop raw ing (ingestionFacilityCol ing) ing.rows with
  | none => rw [hloop] at h; cases h
  | some t =>
    obtain ⟨recs, m, u, qm, qmm⟩ := t
    rw [hloop] at h
    cases h
    exact (ghgLoop_spec hloop).2.2.imp (fun _ _ hmd => processIngestionRow_spec hmd)

/-- Witness for C1: on the one-row sample tables the matcher succeeds and
the per-row contract holds of the produced record list. -/
theorem C1_record_matching_witness :
    List.Forall₂ (matchRecordSpec rawSampleB ingSampleB) ingSampleB.rows
      sampleMatchResult.comparison_results :=
  C1_record_matching rawSampleB ingSampleB sampleMatchResult (by decide)

/-- Claim C2: Whenever the record matcher succeeds, its counters satisfy
`matched_rows + unmatched_rows = total_ingestion_rows` and
`quantity_matches + quantity_mismatches = matched_rows`. -/
theorem C2_counter_invariants (raw ing : Table) (res : MatchResult)
    (h : map_ghg_emissions_data raw ing "Monthly Data in Rows" =
      .rowsResult res) :
    res.matched_rows + res.unmatched_rows = res.total_ingestion_rows ∧
      res.quantity_matches + res.quantity_mismatches = res.matched_rows := by
  unfold map_ghg_emissions_data at h
  rw [if_pos rfl] at h
  cases hloop : ghgLoop raw ing (ingestionFacilityCol ing) ing.rows with
  | none => rw [hloop] at h; cases h
  | some t =>
    obtain ⟨recs, m, u, qm, qmm⟩ := t
    rw [hloop] at h
    cases h
    obtain ⟨h1, h2, _⟩ := ghgLoop_spec hloop
    exact ⟨h1, h2⟩

/-- Witness for C2: the counter identities at the one-row sample tables. -/
theorem C2_counter_invariants_witness :
    sampleMatchResult.matched_rows + sampleMatchResult.unmatched_rows =
        sampleMatchResult.total_ingestion_rows ∧
      sampleMatchResult.quantity_matches + sampleMatchResult.quantity_mismatches =
        sampleMatchResult.matched_rows :=
  C2_counter_invariants rawSampleB ingSampleB sampleMatchResult (by decide)

/-! Section: Lemmas about duplicate detection -/

theorem dupFlagsFirst_count_add (ps : List (List Value)) :
    ∀ seen : List (List Value),
      (dupFlagsFirst seen ps).count true + (ps.toFinset \ seen.toFinset).card =
        ps.length := by
  induction ps with
  | nil => intro seen; simp [dupFlagsFirst]
  | cons p ps ih =>
    intro seen
    by_cases hp : p ∈ seen
    · have e : dupFlagsFirst seen (p :: ps) = true :: dupFlagsFirst (p :: seen) ps := by
        simp [dupFlagsFirst, hp]
      have emem : p ∈ ps.toFinset ∪ seen.toFinset ∨ True := Or.inr trivial
      have e2 : (p :: ps).toFinset \ seen.toFinset = ps.toFinset \ seen.toFinset := by
        rw [List.toFinset_cons]
        exact Finset.insert_sdiff_of_mem _ (List.mem_toFinset.mpr hp)
      have e3 : (p :: seen).toFinset = seen.toFinset := by
        rw [List.toFinset_cons]
        exact Finset.insert_eq_self.mpr (List.mem_toFinset.mpr hp)
      have := ih (p :: seen)
      rw [e3] at this
      rw [e, List.count_cons_self, e2, List.length_cons]
      omega
    · have e : dupFlagsFirst seen (p :: ps) = false :: dupFlagsFirst (p :: seen) ps := by
        simp [dupFlagsFirst, hp]
      have hpB : p ∉ seen.toFinset := fun hc => hp (List.mem_toFinset.mp hc)
      have ecard : ((p :: ps).toFinset \ seen.toFinset).card =
          (ps.toFinset \ (p :: seen).toFinset).card + 1 := by
        rw [List.toFinset_cons, List.toFinset_cons,
          Finset.insert_sdiff_of_not_mem _ hpB, Finset.sdiff_insert]
        by_cases hpa : p ∈ ps.toFinset \ seen.toFinset
        · rw [Finset.insert_eq_self.mpr hpa, Finset.card_erase_of_mem hpa]
          have hpos : 0 < (ps.toFinset \ seen.toFinset).card :=
            Finset.card_pos.mpr ⟨p, hpa⟩
          omega
        · rw [Finset.card_insert_of_not_mem hpa, Finset.erase_eq_of_not_mem hpa]
      have := ih (p :: seen)
      rw [e, List.count_cons_of_ne (by decide), ecard, List.length_cons]
      omega

theorem dupFlagsFirst_count_eq_zero (ps : List (List Value)) :
    ∀ seen : List (List Value),
      ((dupFlagsFirst seen ps).count true = 0 ↔
        (ps.Nodup ∧ ∀ p ∈ ps, p ∉ seen)) := by
  induction ps with
  | nil => intro seen; simp [dupFlagsFirst]
  | cons p ps ih =>
    intro seen
    by_cases hp : p ∈ seen
    · have e : dupFlagsFirst seen (p :: ps) = true :: dupFlagsFirst (p :: seen) ps := by
        simp [dupFlagsFirst, hp]
      rw [e, List.count_cons_self]
      constructor
      · intro hc; omega
      · rintro ⟨-, hall⟩
        exact absurd hp (hall p (List.mem_cons_self p ps))
    · have e : dupFlagsFirst seen (p :: ps) = false :: dupFlagsFirst (p :: seen) ps := by
        simp [dupFlagsFirst, hp]
      rw [e, List.count_cons_of_ne (by decide), ih (p :: seen)]
      constructor
      · rintro ⟨hnd, hall⟩
        refine ⟨List.nodup_cons.mpr ⟨fun hmem => ?_, hnd⟩, ?_⟩
        · exact (hall p hmem) (List.mem_cons_self p seen)
        · intro q hq
          rcases List.mem_cons.mp hq with rfl | hq
          · exact hp
          · intro hqseen
            exact (hall q hq) (List.mem_cons.mpr (Or.inr hqseen))
      · rintro ⟨hnd, hall⟩
        obtain ⟨hpnotin, hnd'⟩ := List.nodup_cons.mp hnd
        refine ⟨hnd', fun q hq hqmem => ?_⟩
        rcases List.mem_cons.mp hqmem with rfl | hqseen
        · exact hpnotin hq
        · exact (hall q (List.mem_cons.mpr (Or.inr hq))) hqseen

theorem countP_key (ing : Table) (x : List Value) :
    (projList ing).countP (fun q => decide (q = x)) =
      ing.rows.countP (fun s => decide (keyProjection ing s = x)) := by
  rw [projList, List.countP_map]
  rfl

theorem keyOccurrences_eq_countP (ing : Table) (r : List Value) :
    keyOccurrences ing r =
      (projList ing).countP (fun q => decide (q = keyProjection ing r)) := by
  rw [keyOccurrences, countP_key]

theorem nodup_countP_le_one :
    ∀ {ps : List (List Value)}, ps.Nodup → ∀ x : List Value,
      ps.countP (fun q => decide (q = x)) ≤ 1 := by
  intro ps
  induction ps with
  | nil => intro _ x; simp
  | cons p ps ih =>
    intro h x
    obtain ⟨hpn, hnd⟩ := List.nodup_cons.mp h
    rw [List.countP_cons]
    by_cases hpx : p = x
    · have hzero : ps.countP (fun q => decide (q = x)) = 0 := by
        rw [List.countP_eq_zero]
        intro a ha
        simp only [decide_eq_true_eq]
        intro hax
        rw [hax, ← hpx] at ha
        exact hpn ha
      simp [hpx, hzero]
    · simp only [decide_eq_true_eq, hpx, if_false]
      have := ih hnd x
      omega

theorem not_nodup_exists_two (ps : List (List Value)) (h : ¬ ps.Nodup) :
    ∃ x ∈ ps, 2 ≤ ps.countP (fun q => decide (q = x)) := by
  induction ps with
  | nil => exact absurd List.nodup_nil h
  | cons p ps ih =>
    rw [List.nodup_cons] at h
    push_neg at h
    by_cases hp : p ∈ ps
    · refine ⟨p, List.mem_cons_self p ps, ?_⟩
      have hpos : 0 < ps.countP (fun q => decide (q = p)) :=
        List.countP_pos_iff.mpr ⟨p, hp, by simp⟩
      rw [List.countP_cons, if_pos (by simp : ((fun q => decide (q = p)) p = true))]
      omega
    · obtain ⟨x, hx, h2⟩ := ih (h hp)
      refine ⟨x, List.mem_cons.mpr (Or.inr hx), ?_⟩
      rw [List.countP_cons]
      omega

theorem reportedDuplicateCount_pos_iff (ing : Table) :
    0 < reportedDuplicateCount ing ↔ hasDuplicateGroup ing = true := by
  have hrdef : reportedDuplicateCount ing =
      (dupFlagsFirst [] (projList ing)).count true := rfl
  have hz := dupFlagsFirst_count_eq_zero (projList ing) []
  simp only [List.not_mem_nil, not_false_iff, implies_true, and_true] at hz
  rw [hrdef]
  constructor
  · intro hpos
    have hnd : ¬ (projList ing).Nodup := by
      intro hnd
      have h0 := hz.mpr hnd
      omega
    obtain ⟨x, hxmem, h2⟩ := not_nodup_exists_two _ hnd
    obtain ⟨r, hr, hrx⟩ := List.mem_map.mp hxmem
    rw [hasDuplicateGroup, List.any_eq_true]
    refine ⟨r, hr, ?_⟩
    rw [decide_eq_true_eq, keyOccurrences_eq_countP, hrx]
    exact h2
  · intro hdup
    obtain ⟨r, hr, hcnt⟩ := List.any_eq_true.mp hdup
    rw [decide_eq_true_eq, keyOccurrences_eq_countP] at hcnt
    have hnd : ¬ (projList ing).Nodup := by
      intro hnd
      have := nodup_countP_le_one hnd (keyProjection ing r)
      omega
    have h0 : (dupFlagsFirst [] (projList ing)).count true ≠ 0 := by
      intro h0
      exact hnd (hz.mp h0)
    omega

theorem maskFilter_map (g : List Value → Bool) :
    ∀ l : List (List Value), maskFilter l (l.map g) = l.filter g := by
  intro l
  induction l with
  | nil => rfl
  | cons a l ih =>
    cases hga : g a <;>
      simp [maskFilter, List.filter_cons, hga, ← ih]

theorem dupMaskAll_filter (ing : Table) :
    maskFilter ing.rows (dupMaskAll (projList ing)) = duplicateGroupRows ing := by
  have e1 : dupMaskAll (projList ing) =
      ing.rows.map (fun r => decide (2 ≤
        (projList ing).countP (fun q => decide (q = keyProjection ing r)))) := by
    rw [dupMaskAll, projList, List.map_map]
    rfl
  rw [e1, maskFilter_map, duplicateGroupRows]
  apply List.filter_congr
  intro r _
  rw [keyOccurrences_eq_countP]

theorem qualityBranch_duplicate_rows (ing : Table) (ctc : List String)
    (mkMsg : Nat → String) :
    (qualityBranch ing ctc (duplicateColumnsOf ing) mkMsg).duplicate_rows =
      (if hasDuplicateGroup ing then some (duplicateGroupRows ing) else none) := by
  have eproj : ing.rows.map (projRow ing (duplicateColumnsOf ing)) = projList ing := rfl
  simp only [qualityBranch, eproj]
  have ecount : (dupFlagsFirst [] (projList ing)).count true =
      reportedDuplicateCount ing := rfl
  rw [ecount]
  by_cases hpos : 0 < reportedDuplicateCount ing
  · rw [if_pos hpos, if_pos ((reportedDuplicateCount_pos_iff ing).mp hpos)]
    show some (maskFilter ing.rows (dupMaskAll (projList ing))) = _
    rw [dupMaskAll_filter]
  · rw [if_neg hpos]
    have hdg : ¬ hasDuplicateGroup ing = true := fun hc =>
      hpos ((reportedDuplicateCount_pos_iff ing).mpr hc)
    rw [if_neg hdg]

theorem qualityBranch_issues_pos (ing : Table) (ctc : List String)
    (mkMsg : Nat → String) (hpos : 0 < reportedDuplicateCount ing) :
    (qualityBranch ing ctc (duplicateColumnsOf ing) mkMsg).quality_issues =
      nullIssues ing ctc ++ [mkMsg (reportedDuplicateCount ing)] := by
  have eproj : ing.rows.map (projRow ing (duplicateColumnsOf ing)) = projList ing := rfl
  simp only [qualityBranch, eproj]
  have ecount : (dupFlagsFirst [] (projList ing)).count true =
      reportedDuplicateCount ing := rfl
  rw [ecount, if_pos hpos]

theorem analyze_data_quality_eq (raw ing : Table) :
    analyze_data_quality raw ing =
      qualityBranch ing (duplicateColumnsOf ing) (duplicateColumnsOf ing)
        (dupIssueMessage ing) := by
  simp only [analyze_data_quality]
  by_cases h1 : identify_ingestion_file_type ing = "Monthly Data in Rows"
  · rw [if_pos h1]
    have e1 : duplicateColumnsOf ing = ing.cols.filter (fun c => c != "Quantity") := by
      rw [duplicateColumnsOf, if_pos h1]
    have e2 : dupIssueMessage ing = dupMsgRows := by
      funext n
      rw [dupIssueMessage, if_pos h1]
    rw [e1, e2]
  · rw [if_neg h1]
    by_cases h2 : identify_ingestion_file_type ing = "Monthly Data in Columns"
    · rw [if_pos h2]
      have e1 : duplicateColumnsOf ing =
          ing.cols.filter (fun c => !(isMonthColumn c)) := by
        rw [duplicateColumnsOf, if_neg h1, if_pos h2]
      have e2 : dupIssueMessage ing = dupMsgCols := by
        funext n
        rw [dupIssueMessage, if_neg h1, if_pos h2]
      rw [e1, e2]
    · rw [if_neg h2]
      have e1 : duplicateColumnsOf ing = ing.cols := by
        rw [duplicateColumnsOf, if_neg h1, if_neg h2]
      have e2 : dupIssueMessage ing = dupMsgAll := by
        funext n
        rw [dupIssueMessage, if_neg h1, if_neg h2]
      rw [e1, e2]

/-- Claim C4: For every raw table and every ingestion table, the
`duplicate_rows` sub-table of the quality analysis is present exactly when
some row's identifying-column projection occurs at least twice, and then it
consists of exactly the rows whose projection occurs at least twice —
every occurrence of each duplicate group, the first included, in original
row order; otherwise it is absent. -/
theorem C4_duplicate_rows (raw ing : Table) :
    (analyze_data_quality raw ing).duplicate_rows =
      (if hasDuplicateGroup ing then some (duplicateGroupRows ing) else none) := by
  rw [analyze_data_quality_eq]
  exact qualityBranch_duplicate_rows ing (duplicateColumnsOf ing) (dupIssueMessage ing)

/-- Counterexample to claim C3 as stated: on a `Monthly Data in Rows` table
whose two rows agree on every identifying column, the quality analysis
reports `1` duplicate row, not `2` — the emitted count is the number of
rows flagged beyond the first occurrence of each group, not the total
membership of the duplicate groups. -/
theorem C3_counterexample :
    (analyze_data_quality rawSampleB ingSampleD).quality_issues = [dupMsgRows 1] ∧
      dupMsgRows 2 ∉ (analyze_data_quality rawSampleB ingSampleD).quality_issues := by
  constructor
  · decide
  · decide

/-- Claim C3 as amended: The duplicate issue message reports the number of
rows that repeat an earlier row's identifying projection, which equals the
total row count minus the number of distinct projections (for two
identical rows this is `1`, not `2`); when that count is positive, the
message built from it is emitted among the quality issues. -/
theorem C3_duplicate_message (raw ing : Table) :
    reportedDuplicateCount ing + (projList ing).toFinset.card = ing.rows.length ∧
      (0 < reportedDuplicateCount ing →
        dupIssueMessage ing (reportedDuplicateCount ing) ∈
          (analyze_data_quality raw ing).quality_issues) := by
  constructor
  · have h := dupFlagsFirst_count_add (projList ing) []
    simp only [List.toFinset_nil, Finset.sdiff_empty] at h
    have hlen : (projList ing).length = ing.rows.length := by
      rw [projList, List.length_map]
    rw [← hlen]
    exact h
  · intro hpos
    rw [analyze_data_quality_eq,
      qualityBranch_issues_pos _ _ _ hpos]
    exact List.mem_append_right _ (List.mem_singleton_self _)

/-- Witness for the amended C3: on the two-identical-row table the count
identity holds and the emitted message is among the issues. -/
theorem C3_duplicate_message_witness :
    reportedDuplicateCount ingSampleD + (projList ingSampleD).toFinset.card =
        ingSampleD.rows.length ∧
      dupIssueMessage ingSampleD (reportedDuplicateCount ingSampleD) ∈
        (analyze_data_quality rawSampleB ingSampleD).quality_issues :=
  ⟨(C3_duplicate_message rawSampleB ingSampleD).1,
    (C3_duplicate_message rawSampleB ingSampleD).2 (by decide)⟩

/-- Counterexample to claim C5 as stated: the report embeds the wall-clock
timestamp of the invocation (`datetime.now()`), so two invocations at
different times on the same unchanged tables yield different reports; the
report is not a function of the two input tables alone. -/
theorem C5_counterexample :
    generate_comparison_report "2024-01-01 10:00:00" rawSampleB ingSampleB ≠
      generate_comparison_report "2024-01-01 10:00:01" rawSampleB ingSampleB := by
  intro h
  have ht := congrArg ComparisonReport.timestamp h
  simp only [generate_comparison_report] at ht
  exact absurd ht (by decide)

/-- Claim C5 as amended: Apart from the timestamp field, which records the
wall-clock time of the call, the report is a deterministic function of the
two input tables: reports generated at any two times agree on every other
field, and there is no other hidden state. -/
theorem C5_determinism (now1 now2 : String) (raw ing : Table) :
    (generate_comparison_report now1 raw ing).basic_comparison =
        (generate_comparison_report now2 raw ing).basic_comparison ∧
      (generate_comparison_report now1 raw ing).data_quality_issues =
        (generate_comparison_report now2 raw ing).data_quality_issues ∧
      (generate_comparison_report now1 raw ing).discrepancies =
        (generate_comparison_report now2 raw ing).discrepancies :=
  ⟨rfl, rfl, rfl⟩

/-- Counterexample to claim C6 as stated: on an ingestion table with a
`Scope` column but an unrecognized schema, the orchestrator still invokes
the GHG record matcher (the report's `resource_comparison` field is
present, holding an error value), although the classified schema is
`Unknown`. -/
theorem C6_counterexample :
    (compare_dataframes rawSampleB ingSampleU).resource_comparison ≠ none ∧
      identify_resource_type ingSampleU = "GHG Emissions" ∧
      identify_ingestion_file_type ingSampleU = "Unknown" := by
  refine ⟨by decide, by decide, by decide⟩

/-- Claim C6 as amended: The orchestrator invokes the GHG record matcher (and
the report carries a `resource_comparison` field) exactly when the
classified resource kind is `GHG Emissions`, regardless of schema; the
report carries a `MatchRecord` list with summary counters exactly when in
addition the matcher returns a row-mapping result, which happens only for
the `Monthly Data in Rows` schema (an `Unknown` schema yields an error
value, `Monthly Data in Columns` a placeholder). -/
theorem C6_matcher_invocation (raw ing : Table) :
    ((compare_dataframes raw ing).resource_comparison.isSome = true ↔
        identify_resource_type ing = "GHG Emissions") ∧
      (carriesMatchRecords (compare_dataframes raw ing).resource_comparison = true ↔
        (identify_resource_type ing = "GHG Emissions" ∧
          (map_ghg_emissions_data raw ing
            (identify_ingestion_file_type ing)).isRowsResult = true)) ∧
      (∀ (t : String) (r : MatchResult),
        map_ghg_emissions_data raw ing t = .rowsResult r →
          t = "Monthly Data in Rows") := by
  refine ⟨?_, ?_, ?_⟩
  · simp only [compare_dataframes]
    by_cases hres : identify_resource_type ing = "GHG Emissions"
    · rw [if_pos hres]
      simp [hres]
    · rw [if_neg hres]
      simp [hres]
  · simp only [compare_dataframes]
    by_cases hres : identify_resource_type ing = "GHG Emissions"
    · rw [if_pos hres]
      cases hmap : map_ghg_emissions_data raw ing (identify_ingestion_file_type ing) <;>
        simp [compare_ghg_emissions_data, hmap, carriesMatchRecords,
          GhgMapOutput.isRowsResult, hres]
    · rw [if_neg hres]
      simp [carriesMatchRecords, hres]
  · intro t r h
    rw [map_ghg_emissions_data] at h
    by_cases h1 : t = "Monthly Data in Rows"
    · exact h1
    · rw [if_neg h1] at h
      by_cases h2 : t = "Monthly Data in Columns"
      · rw [if_pos h2] at h
        cases h
      · rw [if_neg h2] at h
        cases h

/-- Witness for the amended C6: the invocation equivalence at the sample
tables, and the third clause applied at the successful sample mapping. -/
theorem C6_matcher_invocation_witness :
    ((compare_dataframes rawSampleB ingSampleB).resource_comparison.isSome = true ↔
        identify_resource_type ingSampleB = "GHG Emissions") ∧
      ("Monthly Data in Rows" : String) = "Monthly Data in Rows" :=
  ⟨(C6_matcher_invocation rawSampleB ingSampleB).1,
    (C6_matcher_invocation rawSampleB ingSampleB).2.2 "Monthly Data in Rows"
      sampleMatchResult (by decide)⟩

/-- Claim C10: The quality analysis never reads its raw-table argument: for
any two raw tables, analysing the same ingestion table yields identical
results (issue list and duplicate sub-table alike). -/
theorem C10_quality_ignores_raw (raw1 raw2 ing : Table) :
    analyze_data_quality raw1 ing = analyze_data_quality raw2 ing := rfl

/-- Claim C7: Whenever the facility comparison succeeds, its counts satisfy
common + missing-in-ingestion = size of the raw facility set and
common + missing-in-raw = size of the ingestion facility set, and the two
difference sets are disjoint from each other and from the common set. -/
theorem C7_facility_counts (raw ing : Table) (r : FacilityComparisonResult)
    (h : compare_facility_names raw ing = .ok r) :
    r.common_facilities_count + r.missing_in_ingestion_count =
        r.raw_facilities_count ∧
      r.common_facilities_count + r.missing_in_raw_count =
        r.ingestion_facilities_count ∧
      Disjoint r.missing_in_raw r.missing_in_ingestion ∧
      Disjoint r.missing_in_raw
        (facilitySet raw "Facility Name" ∩
          facilitySet ing (ingestionFacilityCol ing)) ∧
      Disjoint r.missing_in_ingestion
        (facilitySet raw "Facility Name" ∩
          facilitySet ing (ingestionFacilityCol ing)) := by
  rw [compare_facility_names] at h
  split at h
  · cases h
  · split at h
    · cases h
      refine ⟨?_, ?_, ?_, ?_, ?_⟩
      · exact Finset.card_inter_add_card_sdiff _ _
      · rw [Finset.inter_comm]
        exact Finset.card_inter_add_card_sdiff _ _
      · exact disjoint_sdiff_sdiff
      · exact Disjoint.mono_right Finset.inter_subset_left Finset.sdiff_disjoint
      · exact Disjoint.mono_right Finset.inter_subset_right Finset.sdiff_disjoint
    · cases h

/-- Witness for C7: the count identities and disjointness at the
Scenario-A sample tables. -/
theorem C7_facility_counts_witness :
    sampleFacilityResult.common_facilities_count +
          sampleFacilityResult.missing_in_ingestion_count =
        sampleFacilityResult.raw_facilities_count ∧
      sampleFacilityResult.common_facilities_count +
          sampleFacilityResult.missing_in_raw_count =
        sampleFacilityResult.ingestion_facilities_count ∧
      Disjoint sampleFacilityResult.missing_in_raw
        sampleFacilityResult.missing_in_ingestion ∧
      Disjoint sampleFacilityResult.missing_in_raw
        (facilitySet rawSampleC "Facility Name" ∩
          facilitySet ingSampleC (ingestionFacilityCol ingSampleC)) ∧
      Disjoint sampleFacilityResult.missing_in_ingestion
        (facilitySet rawSampleC "Facility Name" ∩
          facilitySet ingSampleC (ingestionFacilityCol ingSampleC)) :=
  C7_facility_counts rawSampleC ingSampleC sampleFacilityResult (by decide)

theorem identify_perm (t1 t2 : Table) (h : t1.cols.Perm t2.cols) :
    identify_ingestion_file_type t1 = identify_ingestion_file_type t2 := by
  have hm : ∀ c : String, c ∈ t1.cols ↔ c ∈ t2.cols := fun c => h.mem_iff
  have hf : (t1.cols.filter isMonthColumn).length =
      (t2.cols.filter isMonthColumn).length := (h.filter _).length_eq
  simp only [identify_ingestion_file_type, hm, hf]

theorem identify_extra_column (t : Table) (c : String)
    (hrel : c ∉ relatedColumnNames) (hmonth : isMonthColumn c = false) :
    identify_ingestion_file_type ⟨t.cols ++ [c], t.rows⟩ =
      identify_ingestion_file_type t := by
  have hmem : ∀ d ∈ relatedColumnNames, (d ∈ t.cols ++ [c] ↔ d ∈ t.cols) := by
    intro d hd
    rw [List.mem_append, List.mem_singleton]
    constructor
    · rintro (h | rfl)
      · exact h
      · exact absurd hd hrel
    · exact fun h => Or.inl h
  have hsub1 : ∀ d ∈ type1_indicators, d ∈ relatedColumnNames := by decide
  have hsub2 : ∀ d ∈ type2_indicators, d ∈ relatedColumnNames := by decide
  have h1 := hmem "Facility Name" (by decide)
  have h2 := hmem "Facility" (by decide)
  have hall1 : (∀ d ∈ type1_indicators, d ∈ t.cols ++ [c]) ↔
      (∀ d ∈ type1_indicators, d ∈ t.cols) :=
    ⟨fun h d hd => (hmem d (hsub1 d hd)).mp (h d hd),
     fun h d hd => (hmem d (hsub1 d hd)).mpr (h d hd)⟩
  have hall2 : (∀ d ∈ type2_indicators, d ∈ t.cols ++ [c]) ↔
      (∀ d ∈ type2_indicators, d ∈ t.cols) :=
    ⟨fun h d hd => (hmem d (hsub2 d hd)).mp (h d hd),
     fun h d hd => (hmem d (hsub2 d hd)).mpr (h d hd)⟩
  have hfl : (t.cols ++ [c]).filter isMonthColumn = t.cols.filter isMonthColumn := by
    rw [List.filter_append]
    simp [List.filter_cons, hmonth]
  simp only [identify_ingestion_file_type, h1, h2, hall1, hall2, hfl]

/-- Claim C8: Schema classification depends only on the set of column names:
permuting the columns leaves the result unchanged, and appending one extra
column whose name is none of the facility/indicator names and contains no
month token leaves the result unchanged. -/
theorem C8_schema_column_set :
    (∀ t1 t2 : Table, t1.cols.Perm t2.cols →
        identify_ingestion_file_type t1 = identify_ingestion_file_type t2) ∧
      (∀ (t : Table) (c : String), c ∉ relatedColumnNames →
        isMonthColumn c = false →
        identify_ingestion_file_type ⟨t.cols ++ [c], t.rows⟩ =
          identify_ingestion_file_type t) :=
  ⟨identify_perm, identify_extra_column⟩

/-- A column permutation of `ingSampleB` (different column order, empty
rows). -/
def ingSampleBPerm : Table :=
  { cols := ["Scope", "Facility Name", "Activity Type", "Month", "Year",
             "Quantity", "Unit", "Resource Name"],
    rows := [] }

/-- Witness for C8: classification is unchanged under a concrete column
permutation and under appending the unrelated column `Comments`. -/
theorem C8_schema_column_set_witness :
    identify_ingestion_file_type ingSampleB =
        identify_ingestion_file_type ingSampleBPerm ∧
      identify_ingestion_file_type ⟨ingSampleB.cols ++ ["Comments"], ingSampleB.rows⟩ =
        identify_ingestion_file_type ingSampleB :=
  ⟨C8_schema_column_set.1 ingSampleB ingSampleBPerm (by decide),
    C8_schema_column_set.2 ingSampleB "Comments" (by decide) (by decide)⟩

/-- Claim C9: The facility comparison returns an error value exactly when the
raw table lacks a `Facility Name` column or the ingestion table lacks both
`Facility Name` and `Facility`; otherwise it returns a comparison result
(the error is a value of the output type, never an exception). -/
theorem C9_facility_error_iff (raw ing : Table) :
    ((compare_facility_names raw ing).isError = true ↔
        ("Facility Name" ∉ raw.cols ∨
          ("Facility Name" ∉ ing.cols ∧ "Facility" ∉ ing.cols))) ∧
      ((compare_facility_names raw ing).isError = false ↔
        ∃ r, compare_facility_names raw ing = .ok r) := by
  rw [compare_facility_names]
  by_cases h1 : "Facility Name" ∉ raw.cols
  · rw [if_pos h1]
    constructor
    · simp [FacilityOutput.isError, h1]
    · constructor
      · intro h
        cases h
      · rintro ⟨r, hr⟩
        cases hr
  · rw [if_neg h1]
    by_cases h2 : "Facility Name" ∈ ing.cols ∨ "Facility" ∈ ing.cols
    · rw [if_pos h2]
      constructor
      · constructor
        · intro h
          cases h
        · intro h
          rcases h with hcase | ⟨hfn, hf⟩
          · exact absurd hcase h1
          · rcases h2 with hc | hc
            · exact absurd hc hfn
            · exact absurd hc hf
      · constructor
        · intro _
          exact ⟨_, rfl⟩
        · intro _
          rfl
    · rw [if_neg h2]
      push_neg at h2
      constructor
      · constructor
        · intro _
          exact Or.inr h2
        · intro _
          rfl
      · constructor
        · intro h
          cases h
        · rintro ⟨r, hr⟩
          cases hr

end DataAnalysis
